import Mathlib

/-!
Shallow embedding of the ingestion/query pipeline in
`src/services/vector_db.py` (data-analysis-ai-agent).

External collaborators (the Gemini embedding service and the Chroma
vector store) are modelled as `Except`-returning function parameters;
the process-wide collection handle is modelled by explicit state
passing.  `asyncio.gather` is modelled as an order-preserving traverse
of the already-launched task results, and the per-batch commit loop as
a fold that stops at the first store error, returning the state reached
so far together with the error.
-/

namespace VectorDb

/-- Model of a pandas cell value: a string, an integer, Python None, or NaN. -/
inductive PyVal where
  | vStr (s : String)
  | vInt (n : Int)
  | vNone
  | vNaN
deriving DecidableEq

/-- Model of `pd.notna`: false exactly on None and NaN. -/
def PyVal.notna : PyVal → Bool
  | .vNone => false
  | .vNaN => false
  | _ => true

/-- Model of Python `str(val)` on a cell value. -/
def PyVal.str : PyVal → String
  | .vStr s => s
  | .vInt n => toString n
  | .vNone => "None"
  | .vNaN => "nan"

/-- A DataFrame: named columns and rows of cell values (default RangeIndex,
so the `iterrows` index of a row is its position). -/
structure DataFrame where
  columns : List String
  rows : List (List PyVal)

/-- Metadata written for each row: `{"source": source_name, "row": int(i)}`. -/
structure Meta where
  source : String
  row : Int
deriving DecidableEq

/-- Line 42: `[str(val) if pd.notna(val) else "" for val in row]`. -/
def rowValues (row : List PyVal) : List String :=
  row.map fun v => if v.notna then v.str else ""

/-- Line 43: `", ".join([f"{col}: {val}" for col, val in zip(df.columns, row_values)])`. -/
def rowText (cols : List String) (row : List PyVal) : String :=
  String.intercalate ", " ((cols.zip (rowValues row)).map fun cv => cv.1 ++ ": " ++ cv.2)

/-- Line 44: `f"{source_name}_row{i}"`. -/
def docId (source_name : String) (i : Nat) : String :=
  source_name ++ "_row" ++ toString i

/-- The `docs` list built by the loop at lines 40-47. -/
def docsOf (df : DataFrame) : List String :=
  df.rows.map (rowText df.columns)

/-- The `ids` list built by the loop at lines 40-47. -/
def idsOf (df : DataFrame) (source_name : String) : List String :=
  (List.range df.rows.length).map (docId source_name)

/-- The `metas` list built by the loop at lines 40-47. -/
def metasOf (df : DataFrame) (source_name : String) : List Meta :=
  (List.range df.rows.length).map fun i => ⟨source_name, Int.ofNat i⟩

/-- Error raised by Python `range` when the step is zero. -/
inductive PyErr where
  | valueError
deriving DecidableEq

/-- The batch start offsets `0, B, 2B, …` below `n`, for a positive step `B`:
`range(0, n, B)` has `⌈n/B⌉` elements. -/
def chunkStarts (n B : Nat) : List Nat :=
  (List.range ((n + B - 1) / B)).map (· * B)

/-- Model of Python `range(0, stop, step)`: a `ValueError` for step 0, the
empty range for a negative step, and the multiples of `step` below `stop`
for a positive step. -/
def pyRange (stop : Nat) (step : Int) : Except PyErr (List Nat) :=
  if step = 0 then .error .valueError
  else if step < 0 then .ok []
  else .ok (chunkStarts stop step.toNat)

/-- Model of the Python slice `l[s : s + k]` (for `s, k ≥ 0`). -/
def pySlice (l : List α) (s k : Nat) : List α :=
  (l.drop s).take k

/-- The batch partition produced by the slicing loops at lines 50-51 and
61-67: `docs[i : i + B]` for `i` in `range(0, len(docs), B)`. -/
def partitionDocs (docs : List α) (B : Nat) : List (List α) :=
  (chunkStarts docs.length B).map fun i => pySlice docs i B

theorem pySlice_length (l : List α) (s k : Nat) :
    (pySlice l s k).length = min k (l.length - s) := by
  simp [pySlice]

theorem chunkStarts_zero (B : Nat) (hB : 0 < B) : chunkStarts 0 B = [] := by
  have h : (0 + B - 1) / B = 0 := Nat.div_eq_of_lt (by omega)
  unfold chunkStarts
  rw [h]
  rfl

theorem chunkStarts_count_succ (n B : Nat) (hB : 0 < B) (hn : 0 < n) :
    (n + B - 1) / B = (n - B + B - 1) / B + 1 := by
  rcases Nat.le_total n B with h | h
  · have h1 : n - B = 0 := by omega
    have h2 : (n + B - 1) / B = 1 :=
      Nat.div_eq_of_lt_le (by omega) (by omega)
    have h3 : (0 + B - 1) / B = 0 := Nat.div_eq_of_lt (by omega)
    rw [h1, h2, h3]
  · have h1 : n + B - 1 = (n - B + B - 1) + B := by omega
    rw [h1, Nat.add_div_right _ hB]

theorem chunkStarts_succ (n B : Nat) (hB : 0 < B) (hn : 0 < n) :
    chunkStarts n B = 0 :: (chunkStarts (n - B) B).map (· + B) := by
  unfold chunkStarts
  rw [chunkStarts_count_succ n B hB hn, List.range_succ_eq_map]
  simp only [List.map_cons, List.map_map, Nat.zero_mul]
  congr 1
  apply List.map_congr_left
  intro k _
  simp [Nat.succ_mul]

theorem partitionDocs_nil (B : Nat) (hB : 0 < B) :
    partitionDocs ([] : List α) B = [] := by
  simp [partitionDocs, chunkStarts_zero B hB]

theorem partitionDocs_cons (B : Nat) (hB : 0 < B) (l : List α) (hl : l ≠ []) :
    partitionDocs l B = l.take B :: partitionDocs (l.drop B) B := by
  have hn : 0 < l.length := List.length_pos.mpr hl
  unfold partitionDocs
  rw [chunkStarts_succ l.length B hB hn]
  simp only [List.map_cons, List.map_map]
  rw [List.length_drop]
  congr 1
  apply List.map_congr_left
  intro s _
  simp only [Function.comp_apply, pySlice, List.drop_drop]
  rw [Nat.add_comm]

/-- Concatenating the batches in batch-index order reconstructs the input. -/
theorem partitionDocs_flatten (B : Nat) (hB : 0 < B) (l : List α) :
    (partitionDocs l B).flatten = l := by
  by_cases hl : l = []
  · subst hl; rw [partitionDocs_nil B hB]; rfl
  · rw [partitionDocs_cons B hB l hl, List.flatten_cons,
      partitionDocs_flatten B hB (l.drop B), List.take_append_drop]
termination_by l.length
decreasing_by
  have hn : 0 < l.length := List.length_pos.mpr hl
  simp only [List.length_drop]
  omega

theorem partitionDocs_length (l : List α) (B : Nat) :
    (partitionDocs l B).length = (l.length + B - 1) / B := by
  simp [partitionDocs, chunkStarts]

theorem partitionDocs_getD (l : List α) (B i : Nat)
    (h : i < (l.length + B - 1) / B) :
    (partitionDocs l B).getD i [] = pySlice l (i * B) B := by
  unfold partitionDocs chunkStarts
  rw [List.getD_eq_getElem?_getD, List.getElem?_map, List.getElem?_map,
    List.getElem?_range h]
  rfl

/-- One `collection.add(ids=…, documents=…, embeddings=…, metadatas=…)`
call issued by the commit loop at lines 61-67.  `Emb` is the abstract type
of one embedding vector. -/
structure AddCall (Emb : Type u) where
  ids : List String
  documents : List String
  embeddings : List Emb
  metadatas : List Meta
deriving DecidableEq

/-- A committed `(id, text, embedding, metadata)` tuple of the collection. -/
structure IndexEntry (Emb : Type u) where
  id : String
  text : String
  embedding : Emb
  metadata : Meta
deriving DecidableEq

/-- Model of `asyncio.gather(*tasks)`: every task has already been launched;
the join returns the results in task order, or the error of a failing task
(determinised here to the first by index). -/
def gatherExcept : List (Except ε α) → Except ε (List α)
  | [] => .ok []
  | .error e :: _ => .error e
  | .ok a :: rest => (gatherExcept rest).map (a :: ·)

/-- The sequential per-batch commit loop (lines 61-68): issue the add calls
in order, stopping at the first store error; the state reached so far is
kept (no rollback), together with the outcome. -/
def commitLoop (addFn : C → AddCall Emb → Except σ C) :
    C → List (AddCall Emb) → C × Except σ Unit
  | st, [] => (st, .ok ())
  | st, c :: cs =>
    match addFn st c with
    | .error e => (st, .error e)
    | .ok st' => commitLoop addFn st' cs

/-- Folding the add calls while they all succeed (used to name the state
reached after committing a prefix of the batches). -/
def foldAdds (addFn : C → AddCall Emb → Except σ C) :
    C → List (AddCall Emb) → Except σ C
  | st, [] => .ok st
  | st, c :: cs =>
    match addFn st c with
    | .error e => .error e
    | .ok st' => foldAdds addFn st' cs

/-- Outcome of one ingestion run: a `ValueError` from `range` (batch size
zero), an embedding-service error, or a store error from an add call. -/
inductive IngestError (ε : Type v) (σ : Type w) where
  | valueError
  | embed (e : ε)
  | store (e : σ)

/-- Tags a store error of the commit loop as an ingestion outcome. -/
def storeWrap : C × Except σ Unit → C × Except (IngestError ε σ) Unit
  | (st, .ok ()) => (st, .ok ())
  | (st, .error e) => (st, .error (.store e))

/-- Shallow embedding of `add_df_to_db_async` (lines 36-70).  The embedding
service (`embedBatch`, one call per batch), the store (`addFn`), and the
collection handle (`st`) are explicit parameters; the function returns the
final collection state together with the outcome. -/
def add_df_to_db_async (embedBatch : List String → Except ε (List Emb))
    (addFn : C → AddCall Emb → Except σ C) (st : C)
    (df : DataFrame) (source_name : String) (batch_size : Int) :
    C × Except (IngestError ε σ) Unit :=
  let docs := docsOf df
  let ids := idsOf df source_name
  let metas := metasOf df source_name
  match pyRange docs.length batch_size with
  | .error _ => (st, .error .valueError)
  | .ok starts =>
    let embedding_tasks := starts.map fun i =>
      embedBatch (pySlice docs i batch_size.toNat)
    match gatherExcept embedding_tasks with
    | .error e => (st, .error (.embed e))
    | .ok all_embeddings_results =>
      let all_embeddings := all_embeddings_results.flatten
      match pyRange ids.length batch_size with
      | .error _ => (st, .error .valueError)
      | .ok starts2 =>
        let calls := starts2.map fun i =>
          AddCall.mk (pySlice ids i batch_size.toNat)
            (pySlice docs i batch_size.toNat)
            (pySlice all_embeddings i batch_size.toNat)
            (pySlice metas i batch_size.toNat)
        storeWrap (commitLoop addFn st calls)

/-- Shallow embedding of the synchronous wrapper `add_df_to_db`
(lines 73-75): runs the async ingestion with the default batch size 100. -/
def add_df_to_db (embedBatch : List String → Except ε (List Emb))
    (addFn : C → AddCall Emb → Except σ C) (st : C)
    (df : DataFrame) (source_name : String) :
    C × Except (IngestError ε σ) Unit :=
  add_df_to_db_async embedBatch addFn st df source_name 100

/-- The tuples a pure store appends for one add call (positional zip of the
four lists, as Chroma stores them). -/
def zipEntries : List String → List String → List Emb → List Meta →
    List (IndexEntry Emb)
  | i :: is, d :: ds, e :: es, m :: ms => ⟨i, d, e, m⟩ :: zipEntries is ds es ms
  | _, _, _, _ => []

/-- The entries one add call carries. -/
def callEntries (c : AddCall Emb) : List (IndexEntry Emb) :=
  zipEntries c.ids c.documents c.embeddings c.metadatas

/-- An idealised always-succeeding store: an add call appends its entries. -/
def pureAdd : List (IndexEntry Emb) → AddCall Emb →
    Except σ (List (IndexEntry Emb)) :=
  fun st c => .ok (st ++ callEntries c)

/-- An embedding service that always succeeds, embedding each text with `f`
(one vector per text, order preserved). -/
def okEmbed (f : String → Emb) : List String → Except ε (List Emb) :=
  fun texts => .ok (texts.map f)

/-- The list of add calls a run with a successful arity-preserving embedder
issues (batch `k` covers offsets `k*B … k*B+B-1`). -/
def ingestCalls (f : String → Emb) (df : DataFrame) (source_name : String)
    (B : Nat) : List (AddCall Emb) :=
  (chunkStarts (idsOf df source_name).length B).map fun i =>
    AddCall.mk (pySlice (idsOf df source_name) i B)
      (pySlice (docsOf df) i B)
      (pySlice ((docsOf df).map f) i B)
      (pySlice (metasOf df source_name) i B)

/-- Raw result dict returned by `collection.query` (line 88): the
`documents`/`metadatas` keys may be absent (`dict.get` default `[[]]`),
and an individual metadata entry may be `None`. -/
structure RawResult where
  documents : Option (List (List String))
  metadatas : Option (List (List (Option Meta)))

/-- One reshaped query hit `{"text": …, "source": …, "row": …}`. -/
structure Hit where
  text : String
  source : Option String
  row : Option Int
deriving DecidableEq

/-- Outcome taxonomy for a query run: embedding error, store error, or an
`IndexError` from the raw-result reshaping. -/
inductive QueryError (ε : Type v) (σ : Type w) where
  | embed (e : ε)
  | store (e : σ)
  | indexError

/-- The loop at lines 96-102: `for i, doc in enumerate(docs)` reads
`metadatas[i]` (an `IndexError`, modelled as `none`, if out of range),
replaces a `None` metadata by `{}`, and builds the hit. -/
def buildHitsFrom (metadatas : List (Option Meta)) :
    Nat → List String → Option (List Hit)
  | _, [] => some []
  | i, doc :: ds =>
    match metadatas.get? i with
    | none => none
    | some m =>
      (buildHitsFrom metadatas (i + 1) ds).map
        (⟨doc, m.map (·.source), m.map (·.row)⟩ :: ·)

/-- Shallow embedding of `query_db` (lines 85-103). -/
def query_db (embedOne : String → Except ε Emb)
    (queryFn : Emb → Nat → Except σ RawResult)
    (question : String) (top_k : Nat) : Except (QueryError ε σ) (List Hit) :=
  match embedOne question with
  | .error e => .error (.embed e)
  | .ok q_emb =>
    match queryFn q_emb top_k with
    | .error e => .error (.store e)
    | .ok results =>
      match (results.documents.getD [[]]).get? 0 with
      | none => .error .indexError
      | some docs =>
        match (results.metadatas.getD [[]]).get? 0 with
        | none => .error .indexError
        | some metadatas =>
          match buildHitsFrom metadatas 0 docs with
          | none => .error .indexError
          | some hits => .ok hits

/-- Shallow embedding of `clear_db` (lines 106-114).  The store state `S`
and the collection handle `coll` are explicit; `delete` and `getOrCreate`
model `chroma_client.delete_collection` / `get_or_create_collection`.  The
whole body sits in a `try`, so any error is caught: the function is total.
Because the reassignment of the global `collection` is inside the `try`
after the delete, a failing delete leaves the handle unchanged. -/
def clear_db (delete : S → Except κ S) (getOrCreate : S → Except κ (S × Coll))
    (st : S) (coll : Coll) : S × Coll :=
  match delete st with
  | .error _ => (st, coll)
  | .ok st' =>
    match getOrCreate st' with
    | .error _ => (st', coll)
    | .ok (st'', coll') => (st'', coll')

theorem pyRange_pos (n B : Nat) (hB : 0 < B) :
    pyRange n (B : Int) = .ok (chunkStarts n B) := by
  have h0 : ¬((B : Int) = 0) := by omega
  have h1 : ¬((B : Int) < 0) := by omega
  unfold pyRange
  rw [if_neg h0, if_neg h1, Int.toNat_natCast]

theorem pyRange_neg (n : Nat) (b : Int) (hb : b < 0) :
    pyRange n b = .ok [] := by
  unfold pyRange
  rw [if_neg (by omega), if_pos hb]

theorem pyRange_zero (n : Nat) : pyRange n 0 = .error .valueError := rfl

theorem gatherExcept_map_ok (l : List α) (f : α → β) :
    gatherExcept (l.map fun a => (Except.ok (f a) : Except ε β)) =
      .ok (l.map f) := by
  induction l with
  | nil => rfl
  | cons a t ih => simp [gatherExcept, ih, Except.map]

theorem gatherExcept_error (l : List α) (g : α → Except ε β) (a : α) (e : ε)
    (ha : a ∈ l) (he : g a = .error e) :
    ∃ e', gatherExcept (l.map g) = .error e' := by
  induction l with
  | nil => cases ha
  | cons x t ih =>
    rcases List.mem_cons.mp ha with h | h
    · subst h
      exact ⟨e, by simp [gatherExcept, he]⟩
    · match hx : g x with
      | .error e'' => exact ⟨e'', by simp [gatherExcept, hx]⟩
      | .ok v =>
        rcases ih h with ⟨e', h'⟩
        exact ⟨e', by simp [gatherExcept, hx, h', Except.map]⟩

theorem zipEntries_len (a b : List String) (c : List Emb) (d : List Meta)
    (hb : a.length = b.length) (hc : a.length = c.length)
    (hd : a.length = d.length) :
    (zipEntries a b c d).length = a.length := by
  induction a generalizing b c d with
  | nil => rfl
  | cons x t ih =>
    match b, c, d with
    | y :: bs, z :: cs, w :: ds =>
      simp only [zipEntries, List.length_cons] at *
      exact congrArg (· + 1) (ih bs cs ds (by omega) (by omega) (by omega))

theorem zipEntries_map_id (a b : List String) (c : List Emb) (d : List Meta)
    (hb : a.length = b.length) (hc : a.length = c.length)
    (hd : a.length = d.length) :
    (zipEntries a b c d).map (·.id) = a := by
  induction a generalizing b c d with
  | nil => rfl
  | cons x t ih =>
    match b, c, d with
    | y :: bs, z :: cs, w :: ds =>
      simp only [zipEntries, List.map_cons, List.length_cons] at *
      rw [ih bs cs ds (by omega) (by omega) (by omega)]

theorem zipEntries_take_append_drop (B : Nat) (a b : List String)
    (c : List Emb) (d : List Meta) (hb : a.length = b.length)
    (hc : a.length = c.length) (hd : a.length = d.length) :
    zipEntries (a.take B) (b.take B) (c.take B) (d.take B) ++
      zipEntries (a.drop B) (b.drop B) (c.drop B) (d.drop B) =
      zipEntries a b c d := by
  induction B generalizing a b c d with
  | zero => simp [zipEntries]
  | succ B ih =>
    match a, b, c, d with
    | [], b, c, d => simp [zipEntries]
    | x :: as, [], c, d => simp at hb
    | x :: as, y :: bs, [], d => simp at hc
    | x :: as, y :: bs, z :: cs, [] => simp at hd
    | x :: as, y :: bs, z :: cs, w :: ds =>
      simp only [List.take_succ_cons, List.drop_succ_cons, zipEntries,
        List.cons_append, List.length_cons] at *
      exact congrArg _ (ih as bs cs ds (by omega) (by omega) (by omega))

/-- Flattening the per-batch zipped entries of the four aligned lists
yields the zip of the whole lists. -/
theorem zipEntries_chunks_flatten (B : Nat) (hB : 0 < B) (a b : List String)
    (c : List Emb) (d : List Meta) (hb : a.length = b.length)
    (hc : a.length = c.length) (hd : a.length = d.length) :
    ((chunkStarts a.length B).map fun i =>
        zipEntries (pySlice a i B) (pySlice b i B) (pySlice c i B)
          (pySlice d i B)).flatten = zipEntries a b c d := by
  by_cases hl : a = []
  · subst hl
    rw [show (([] : List String)).length = 0 from rfl, chunkStarts_zero B hB]
    cases b <;> cases c <;> cases d <;> rfl
  · have hn : 0 < a.length := List.length_pos.mpr hl
    rw [chunkStarts_succ a.length B hB hn]
    simp only [List.map_cons, List.map_map, List.flatten_cons]
    have htail :
        List.map ((fun i =>
            zipEntries (pySlice a i B) (pySlice b i B) (pySlice c i B)
              (pySlice d i B)) ∘ (· + B)) (chunkStarts (a.length - B) B) =
          List.map (fun i =>
            zipEntries (pySlice (a.drop B) i B) (pySlice (b.drop B) i B)
              (pySlice (c.drop B) i B) (pySlice (d.drop B) i B))
            (chunkStarts ((a.drop B)).length B) := by
      rw [List.length_drop]
      apply List.map_congr_left
      intro s _
      simp only [Function.comp_apply, pySlice, List.drop_drop]
      rw [Nat.add_comm]
    rw [htail,
      zipEntries_chunks_flatten B hB (a.drop B) (b.drop B) (c.drop B)
        (d.drop B) (by simp [hb]) (by simp [hc]) (by simp [hd])]
    simp only [pySlice, List.drop_zero]
    exact zipEntries_take_append_drop B a b c d hb hc hd
termination_by a.length
decreasing_by
  have hpos : 0 < a.length := List.length_pos.mpr hl
  simp only [List.length_drop]
  exact Nat.sub_lt hpos hB

theorem commitLoop_pureAdd (calls : List (AddCall Emb))
    (st : List (IndexEntry Emb)) :
    commitLoop (pureAdd (σ := σ)) st calls =
      (st ++ (calls.map callEntries).flatten, .ok ()) := by
  induction calls generalizing st with
  | nil => simp [commitLoop]
  | cons c cs ih =>
    simp only [commitLoop, pureAdd, List.map_cons, List.flatten_cons]
    rw [ih (st ++ callEntries c), List.append_assoc]

theorem commitLoop_stops_at_error (addFn : C → AddCall Emb → Except σ C)
    (calls : List (AddCall Emb)) (st stk : C) (k : Nat) (c : AddCall Emb)
    (e : σ) (hget : calls.get? k = some c)
    (hpre : foldAdds addFn st (calls.take k) = .ok stk)
    (hfail : addFn stk c = .error e) :
    commitLoop addFn st calls = (stk, .error e) := by
  induction calls generalizing st k with
  | nil => simp at hget
  | cons c0 cs ih =>
    cases k with
    | zero =>
      simp only [List.get?] at hget
      cases hget
      simp only [List.take_zero, foldAdds] at hpre
      cases hpre
      simp [commitLoop, hfail]
    | succ k =>
      simp only [List.get?] at hget
      simp only [List.take_succ_cons, foldAdds] at hpre
      match h0 : addFn st c0 with
      | .error e0 => rw [h0] at hpre; cases hpre
      | .ok st1 =>
        rw [h0] at hpre
        simp only [commitLoop, h0]
        exact ih st1 k hget hpre

/-- With a successful order-and-arity-preserving embedder, a run of the
async ingestion is the embedding phase followed by the commit loop over
exactly the per-batch add calls. -/
theorem ingest_run_eq (f : String → Emb)
    (addFn : C → AddCall Emb → Except σ C) (st : C) (df : DataFrame)
    (source_name : String) (B : Nat) (hB : 0 < B) :
    add_df_to_db_async (okEmbed (ε := ε) f) addFn st df source_name (B : Int) =
      storeWrap (commitLoop addFn st (ingestCalls f df source_name B)) := by
  simp only [add_df_to_db_async, pyRange_pos _ B hB, okEmbed,
    Int.toNat_natCast]
  rw [gatherExcept_map_ok]
  have hflat :
      ((chunkStarts (docsOf df).length B).map fun i =>
          (pySlice (docsOf df) i B).map f).flatten = (docsOf df).map f := by
    have h1 : ((chunkStarts (docsOf df).length B).map fun i =>
        (pySlice (docsOf df) i B).map f) =
        (partitionDocs (docsOf df) B).map (List.map f) := by
      simp [partitionDocs, List.map_map]
    rw [h1, ← List.map_flatten, partitionDocs_flatten B hB]
  dsimp only
  rw [hflat]
  rfl

theorem docsOf_length (df : DataFrame) :
    (docsOf df).length = df.rows.length := by
  simp [docsOf]

theorem idsOf_length (df : DataFrame) (s : String) :
    (idsOf df s).length = df.rows.length := by
  simp [idsOf]

theorem metasOf_length (df : DataFrame) (s : String) :
    (metasOf df s).length = df.rows.length := by
  simp [metasOf]

/-- The entries a fully successful run commits: ids, texts, embeddings and
metadata zipped positionally. -/
def ingestEntries (f : String → Emb) (df : DataFrame) (source_name : String) :
    List (IndexEntry Emb) :=
  zipEntries (idsOf df source_name) (docsOf df) ((docsOf df).map f)
    (metasOf df source_name)

theorem ingestCalls_entries_flatten (f : String → Emb) (df : DataFrame)
    (source_name : String) (B : Nat) (hB : 0 < B) :
    ((ingestCalls f df source_name B).map callEntries).flatten =
      ingestEntries f df source_name := by
  unfold ingestCalls ingestEntries
  rw [List.map_map]
  exact zipEntries_chunks_flatten B hB (idsOf df source_name) (docsOf df)
    ((docsOf df).map f) (metasOf df source_name)
    (by rw [idsOf_length, docsOf_length])
    (by rw [idsOf_length, List.length_map, docsOf_length])
    (by rw [idsOf_length, metasOf_length])

theorem ingestEntries_length (f : String → Emb) (df : DataFrame)
    (source_name : String) :
    (ingestEntries f df source_name).length = df.rows.length := by
  unfold ingestEntries
  rw [zipEntries_len _ _ _ _ (by rw [idsOf_length, docsOf_length])
    (by rw [idsOf_length, List.length_map, docsOf_length])
    (by rw [idsOf_length, metasOf_length]), idsOf_length]

/-- A fully successful run with a pure appending store commits exactly the
zipped entries, in order, after the initial state. -/
theorem ingest_success (f : String → Emb) (st : List (IndexEntry Emb))
    (df : DataFrame) (source_name : String) (B : Nat) (hB : 0 < B) :
    add_df_to_db_async (okEmbed (ε := ε) f) (pureAdd (σ := σ)) st df
        source_name (B : Int) =
      (st ++ ingestEntries f df source_name, .ok ()) := by
  rw [ingest_run_eq f _ st df source_name B hB, commitLoop_pureAdd,
    ingestCalls_entries_flatten f df source_name B hB]
  rfl

/-- Claim C2: for every document sequence and positive batch size, the
slices `docs[i*B : i*B+B]` are contiguous, non-overlapping, order
preserving, their sizes sum to the input length, only the final batch can
be smaller than `B`, and concatenating the batches in batch-index order
reconstructs the input exactly. -/
theorem batches_partition_exact (docs : List String) (B : Nat) (hB : 0 < B) :
    pyRange docs.length (B : Int) = .ok (chunkStarts docs.length B) ∧
    (partitionDocs docs B).flatten = docs ∧
    ((partitionDocs docs B).map List.length).sum = docs.length ∧
    (∀ b ∈ partitionDocs docs B, b.length ≤ B) ∧
    (∀ i, i + 1 < (partitionDocs docs B).length →
      ((partitionDocs docs B).getD i []).length = B) := by
  refine ⟨pyRange_pos _ B hB, partitionDocs_flatten B hB docs, ?_, ?_, ?_⟩
  · rw [← List.length_flatten, partitionDocs_flatten B hB docs]
  · intro b hb
    rcases List.mem_map.mp hb with ⟨i, _, rfl⟩
    rw [pySlice_length]
    exact Nat.min_le_left _ _
  · intro i h
    rw [partitionDocs_length] at h
    rw [partitionDocs_getD docs B i (by omega), pySlice_length]
    have h4 : i + 2 ≤ (docs.length + B - 1) / B := by omega
    have h5 : (i + 2) * B ≤ (docs.length + B - 1) / B * B :=
      Nat.mul_le_mul_right B h4
    have h6 : (docs.length + B - 1) / B * B ≤ docs.length + B - 1 :=
      Nat.div_mul_le_self _ _
    have h3 : i * B + 2 * B ≤ docs.length + B - 1 := by
      calc i * B + 2 * B = (i + 2) * B := by ring
        _ ≤ docs.length + B - 1 := le_trans h5 h6
    have h7 : B ≤ docs.length - i * B := by omega
    omega

/-- Witness for C2 at a concrete three-document input with batch size 2. -/
theorem batches_partition_exact_witness :
    (partitionDocs ["a", "b", "c"] 2).flatten = ["a", "b", "c"] :=
  (batches_partition_exact ["a", "b", "c"] 2 (by decide)).2.1

/-- Claim C1: if any one batch embedding call fails, the whole ingestion
fails with an embedding error and the collection state is returned
unchanged for every possible store — no add call is issued before the full
embedding join succeeds. -/
theorem embed_failure_aborts (embedBatch : List String → Except ε (List Emb))
    (addFn : C → AddCall Emb → Except σ C) (st : C) (df : DataFrame)
    (source_name : String) (B : Int) (starts : List Nat) (i : Nat) (e : ε)
    (hr : pyRange (docsOf df).length B = .ok starts) (hi : i ∈ starts)
    (he : embedBatch (pySlice (docsOf df) i B.toNat) = .error e) :
    (add_df_to_db_async embedBatch addFn st df source_name B).1 = st ∧
    ∃ e', (add_df_to_db_async embedBatch addFn st df source_name B).2 =
      .error (.embed e') := by
  obtain ⟨e', h'⟩ := gatherExcept_error starts
    (fun i => embedBatch (pySlice (docsOf df) i B.toNat)) i e hi he
  simp only [add_df_to_db_async, hr, h']
  exact ⟨trivial, e', rfl⟩

/-- Witness for C1: a one-row frame whose single embedding batch fails. -/
theorem embed_failure_aborts_witness :
    (add_df_to_db_async (fun _ => (Except.error () : Except Unit (List Unit)))
        (pureAdd (σ := Unit)) [] ⟨["c"], [[.vStr "x"]]⟩ "s" 1).1 = [] ∧
    ∃ e', (add_df_to_db_async
        (fun _ => (Except.error () : Except Unit (List Unit)))
        (pureAdd (σ := Unit)) [] ⟨["c"], [[.vStr "x"]]⟩ "s" 1).2 =
      .error (.embed e') :=
  embed_failure_aborts _ _ _ _ _ 1 [0] 0 () rfl (by decide) rfl

/-- Claim C10: ingesting an empty table launches no embedding task, issues
no add call, succeeds, and leaves the collection state unchanged. -/
theorem empty_df_ingestion_noop
    (embedBatch : List String → Except ε (List Emb))
    (addFn : C → AddCall Emb → Except σ C) (st : C) (cols : List String)
    (source_name : String) (B : Nat) (hB : 0 < B) :
    add_df_to_db_async embedBatch addFn st ⟨cols, []⟩ source_name (B : Int) =
      (st, .ok ()) ∧
    pyRange (docsOf ⟨cols, []⟩).length (B : Int) = .ok [] := by
  have hz : pyRange (docsOf (DataFrame.mk cols [])).length (B : Int) =
      .ok [] := by
    rw [pyRange_pos _ B hB]
    simp [docsOf, chunkStarts_zero B hB]
  refine ⟨?_, hz⟩
  simp only [add_df_to_db_async, hz]
  have hz2 : pyRange (idsOf (DataFrame.mk cols []) source_name).length
      (B : Int) = .ok [] := by
    rw [pyRange_pos _ B hB]
    simp [idsOf, chunkStarts_zero B hB]
  simp only [hz2, List.map_nil, gatherExcept]
  rfl

/-- Witness for C10 with an always-failing embedder and store. -/
theorem empty_df_ingestion_noop_witness :
    add_df_to_db_async (fun _ => (Except.error () : Except Unit (List Unit)))
        (fun _ _ => (Except.error () : Except Unit (List (IndexEntry Unit))))
        [] ⟨["c"], []⟩ "s" (100 : Nat) = ([], .ok ()) :=
  (empty_df_ingestion_noop _ _ [] ["c"] "s" 100 (by decide)).1

/-- Corrected C7: the only failure mode of the batch partitioning step is a
batch size of exactly zero, which raises an input-validation error before
any embedding or store call; a negative batch size is not reported as an
error — `range(0, n, b)` is empty, so the run silently performs no
embedding and no add call and succeeds. -/
theorem batch_size_validation
    (embedBatch : List String → Except ε (List Emb))
    (addFn : C → AddCall Emb → Except σ C) (st : C) (df : DataFrame)
    (source_name : String) (b : Int) :
    (b = 0 → add_df_to_db_async embedBatch addFn st df source_name b =
      (st, .error .valueError)) ∧
    (b < 0 → add_df_to_db_async embedBatch addFn st df source_name b =
      (st, .ok ())) := by
  constructor
  · intro h
    subst h
    simp only [add_df_to_db_async, pyRange_zero]
  · intro h
    simp only [add_df_to_db_async, pyRange_neg _ b h, List.map_nil,
      gatherExcept]
    rfl

/-- Witness for the corrected C7: batch size 0 raises, batch size -1 is
silently accepted and commits nothing for a one-row frame. -/
theorem batch_size_validation_witness :
    (add_df_to_db_async (fun _ => (Except.ok [()] : Except Unit (List Unit)))
        (pureAdd (σ := Unit)) [] ⟨["c"], [[.vStr "x"]]⟩ "s" 0 =
      ([], .error .valueError)) ∧
    (add_df_to_db_async (fun _ => (Except.ok [()] : Except Unit (List Unit)))
        (pureAdd (σ := Unit)) [] ⟨["c"], [[.vStr "x"]]⟩ "s" (-1) =
      ([], .ok ())) :=
  ⟨(batch_size_validation _ _ [] ⟨["c"], [[.vStr "x"]]⟩ "s" 0).1 rfl,
   (batch_size_validation _ _ [] ⟨["c"], [[.vStr "x"]]⟩ "s" (-1)).2
     (by decide)⟩

/-- Counterexample to C7 as stated: batch size -1 is an invalid batch size
(not a positive integer), yet the run reports no input-validation error at
all — it returns success while silently dropping the single input row. -/
theorem invalid_batch_size_not_reported :
    add_df_to_db_async (fun _ => (Except.ok [()] : Except Unit (List Unit)))
        (pureAdd (σ := Unit)) [] ⟨["c"], [[.vStr "x"]]⟩ "s" (-1) =
      ([], .ok ()) := by
  simp only [add_df_to_db_async, pyRange_neg _ (-1) (by decide),
    List.map_nil, gatherExcept]
  rfl

/-- Claim C4: index-write commits are issued per batch sequentially after
the embedding join; if the add call for batch `k` fails, batches
`0..k-1` stay committed — the run ends in exactly the state reached after
those commits, with the store error, and performs no rollback. -/
theorem commit_failure_keeps_prefix (f : String → Emb)
    (addFn : C → AddCall Emb → Except σ C) (st stk : C) (df : DataFrame)
    (source_name : String) (B : Nat) (hB : 0 < B) (k : Nat)
    (c : AddCall Emb) (e : σ)
    (hget : (ingestCalls f df source_name B).get? k = some c)
    (hpre : foldAdds addFn st ((ingestCalls f df source_name B).take k) =
      .ok stk)
    (hfail : addFn stk c = .error e) :
    add_df_to_db_async (okEmbed (ε := ε) f) addFn st df source_name
      (B : Int) = (stk, .error (.store e)) := by
  rw [ingest_run_eq f addFn st df source_name B hB,
    commitLoop_stops_at_error addFn _ st stk k c e hget hpre hfail]
  rfl

/-- Witness for C4: two rows, batch size 1; the second add call fails and
the entry committed by the first call remains. -/
theorem commit_failure_keeps_prefix_witness :
    add_df_to_db_async (okEmbed (ε := Unit) (fun _ => ()))
        (fun st c => if c.ids = ["s_row1"]
          then (Except.error () : Except Unit (List (IndexEntry Unit)))
          else .ok (st ++ callEntries c))
        [] ⟨["c"], [[.vStr "x"], [.vStr "y"]]⟩ "s" ((1 : Nat) : Int) =
      ([⟨"s_row0", "c: x", (), ⟨"s", 0⟩⟩], .error (.store ())) :=
  commit_failure_keeps_prefix (fun _ => ())
    (fun st c => if c.ids = ["s_row1"]
      then (Except.error () : Except Unit (List (IndexEntry Unit)))
      else .ok (st ++ callEntries c))
    [] [⟨"s_row0", "c: x", (), ⟨"s", 0⟩⟩]
    ⟨["c"], [[.vStr "x"], [.vStr "y"]]⟩ "s" 1 (by decide) 1
    ⟨["s_row1"], ["c: y"], [()], [⟨"s", 1⟩]⟩ () rfl rfl rfl

/-- Claim C8: the async ingestion entry point takes a frame, a source name
and a batch size (the sync wrapper fixes the default 100); absent failure,
every row becomes exactly one committed entry, in row order. -/
theorem every_row_committed (f : String → Emb) (st : List (IndexEntry Emb))
    (df : DataFrame) (source_name : String) (B : Nat) (hB : 0 < B) :
    (add_df_to_db_async (okEmbed (ε := ε) f) (pureAdd (σ := σ)) st df
        source_name (B : Int) =
      (st ++ ingestEntries f df source_name, .ok ())) ∧
    (ingestEntries f df source_name).length = df.rows.length ∧
    add_df_to_db (okEmbed (ε := ε) f) (pureAdd (σ := σ)) st df source_name =
      add_df_to_db_async (okEmbed (ε := ε) f) (pureAdd (σ := σ)) st df
        source_name 100 :=
  ⟨ingest_success f st df source_name B hB,
   ingestEntries_length f df source_name, rfl⟩

/-- Witness for C8: a one-row frame yields exactly one committed entry. -/
theorem every_row_committed_witness :
    add_df_to_db_async (okEmbed (ε := Unit) (fun _ => ()))
        (pureAdd (σ := Unit)) [] ⟨["c"], [[.vStr "x"]]⟩ "s"
        ((1 : Nat) : Int) =
      ([⟨"s_row0", "c: x", (), ⟨"s", 0⟩⟩], .ok ()) :=
  ((every_row_committed (fun _ => ()) [] ⟨["c"], [[.vStr "x"]]⟩ "s" 1
    (by decide)).1).trans rfl

/-- The 250-row sample frame of the source's `__main__` block, with source
name `samples.csv` as in the spec scenario. -/
def sampleDf : DataFrame :=
  ⟨["col1", "col2"],
   (List.range 250).map fun i => [.vInt (Int.ofNat i),
     .vStr ("text_" ++ toString i)]⟩

/-- Claim C5: ingesting the 250-row frame with batch size 100 and source
`samples.csv` gives 3 embedding batches of sizes 100, 100, 50, three
index-write batches, and 250 committed entries with ids
`samples.csv_row0` … `samples.csv_row249`. -/
theorem scenario_250_rows :
    (docsOf sampleDf).length = 250 ∧
    pyRange (docsOf sampleDf).length ((100 : Nat) : Int) =
      .ok [0, 100, 200] ∧
    ([0, 100, 200].map fun s => (pySlice (docsOf sampleDf) s 100).length) =
      [100, 100, 50] ∧
    (partitionDocs (docsOf sampleDf) 100).length = 3 ∧
    (ingestCalls (fun _ => ()) sampleDf "samples.csv" 100).length = 3 ∧
    add_df_to_db_async (okEmbed (ε := Unit) (fun _ => ()))
        (pureAdd (σ := Unit)) [] sampleDf "samples.csv"
        ((100 : Nat) : Int) =
      ([] ++ ingestEntries (fun _ => ()) sampleDf "samples.csv", .ok ()) ∧
    (ingestEntries (fun _ => ()) sampleDf "samples.csv").length = 250 ∧
    (ingestEntries (fun _ => ()) sampleDf "samples.csv").map (·.id) =
      (List.range 250).map fun i => "samples.csv_row" ++ toString i := by
  have hrows : sampleDf.rows.length = 250 := by simp [sampleDf]
  have hlenD : (docsOf sampleDf).length = 250 := by
    rw [docsOf_length, hrows]
  refine ⟨hlenD, ?_, ?_, ?_, ?_, ?_, ?_, ?_⟩
  · rw [hlenD, pyRange_pos 250 100 (by decide)]
    rfl
  · simp only [List.map_cons, List.map_nil, pySlice_length, hlenD]
    decide
  · rw [partitionDocs_length, hlenD]
  · unfold ingestCalls
    rw [List.length_map]
    unfold chunkStarts
    rw [List.length_map, List.length_range, idsOf_length, hrows]
  · exact ingest_success (fun _ => ()) [] sampleDf "samples.csv" 100
      (by decide)
  · rw [ingestEntries_length, hrows]
  · have hmap : (ingestEntries (fun _ => ()) sampleDf "samples.csv").map
        (·.id) = idsOf sampleDf "samples.csv" := by
      unfold ingestEntries
      exact zipEntries_map_id _ _ _ _
        (by rw [idsOf_length, docsOf_length])
        (by rw [idsOf_length, List.length_map, docsOf_length])
        (by rw [idsOf_length, metasOf_length])
    rw [hmap]
    unfold idsOf
    rw [hrows]
    apply List.map_congr_left
    intro i _
    show "samples.csv" ++ "_row" ++ toString i =
      "samples.csv_row" ++ toString i
    rfl

/-- Serialization of one record, written from the words of the spec: a
comma-separated `column: value` rendering of the pairs in original column
order, a missing (None/NaN) value rendered as the empty string. -/
def specSerialize (cols : List String) (row : List PyVal) : String :=
  String.intercalate ", " ((cols.zip row).map fun cv =>
    cv.1 ++ ": " ++ (if cv.2.notna then cv.2.str else ""))

/-- Claim C9: the document text built from a record is exactly the spec's
comma-separated `column: value` serialization in column order, and a
missing (None/NaN) cell serializes exactly like an empty-string cell, so
its column renders as `column: ` and never the null/NaN token. -/
theorem row_serialization (cols : List String) (row : List PyVal) :
    rowText cols row = specSerialize cols row ∧
    ∀ (pre post : List PyVal) (v : PyVal), v.notna = false →
      rowText cols (pre ++ v :: post) =
        rowText cols (pre ++ .vStr "" :: post) := by
  constructor
  · unfold rowText specSerialize rowValues
    rw [List.zip_map_right, List.map_map]
    rfl
  · intro pre post v hv
    have hval : rowValues (pre ++ v :: post) =
        rowValues (pre ++ .vStr "" :: post) := by
      unfold rowValues
      rw [List.map_append, List.map_append, List.map_cons, List.map_cons,
        hv]
      rfl
    unfold rowText
    rw [hval]

/-- Witness for C9: a NaN cell in the second column renders as `b: `. -/
theorem row_serialization_witness :
    rowText ["a", "b"] ([PyVal.vStr "1"] ++ .vNaN :: []) =
      rowText ["a", "b"] ([PyVal.vStr "1"] ++ .vStr "" :: []) ∧
    rowText ["a", "b"] [.vStr "1", .vNaN] = "a: 1, b: " :=
  ⟨(row_serialization ["a", "b"] []).2 [.vStr "1"] [] .vNaN rfl, by decide⟩

theorem buildHitsFrom_eq (ms : List (Option Meta)) (ds : List String) :
    ∀ (i : Nat), i + ds.length ≤ ms.length →
      buildHitsFrom ms i ds = some ((ds.zip (ms.drop i)).map fun p =>
        ⟨p.1, p.2.map (·.source), p.2.map (·.row)⟩) := by
  induction ds with
  | nil => intro i _; rfl
  | cons d ds ih =>
    intro i h
    have hi : i < ms.length := by
      simp only [List.length_cons] at h
      omega
    have hget : ms.get? i = some (ms.get ⟨i, hi⟩) := List.get?_eq_get hi
    simp only [buildHitsFrom, hget]
    rw [ih (i + 1) (by simp only [List.length_cons] at h; omega)]
    rw [List.drop_eq_getElem_cons hi]
    rfl

/-- Claim C6: a query reshapes the store's raw result arrays into ordered
`{text, source, row}` hits, with `source`/`row` null when the metadata
entry of a hit is absent; in particular an empty raw result (empty
collection) yields the empty hit list, not an error. -/
theorem query_shapes_hits (embedOne : String → Except ε Emb)
    (queryFn : Emb → Nat → Except σ RawResult) (question : String)
    (top_k : Nat) (q_emb : Emb) (ds : List String)
    (ms : List (Option Meta)) (hq : embedOne question = .ok q_emb)
    (hres : queryFn q_emb top_k = .ok ⟨some [ds], some [ms]⟩)
    (hlen : ds.length ≤ ms.length) :
    query_db embedOne queryFn question top_k =
      .ok ((ds.zip ms).map fun p =>
        ⟨p.1, p.2.map (·.source), p.2.map (·.row)⟩) := by
  simp only [query_db, hq, hres, Option.getD, List.get?_cons_zero]
  rw [buildHitsFrom_eq ms ds 0 (by omega), List.drop_zero]

/-- Witness for C6: one hit with metadata, one with absent metadata whose
fields default to null; and the empty raw result yields no hits. -/
theorem query_shapes_hits_witness :
    query_db (fun _ => (Except.ok () : Except Unit Unit))
        (fun _ _ => (.ok ⟨some [["t1", "t2"]],
          some [[some ⟨"s", 0⟩, none]]⟩ : Except Unit RawResult)) "q" 3 =
      .ok [⟨"t1", some "s", some 0⟩, ⟨"t2", none, none⟩] ∧
    query_db (fun _ => (Except.ok () : Except Unit Unit))
        (fun _ _ => (.ok ⟨some [[]], some [[]]⟩ :
          Except Unit RawResult)) "q" 3 = .ok [] := by
  constructor
  · rw [query_shapes_hits _ _ "q" 3 () ["t1", "t2"]
      [some ⟨"s", 0⟩, none] rfl rfl (by decide)]
    rfl
  · rw [query_shapes_hits _ _ "q" 3 () [] [] rfl rfl (by decide)]
    rfl

/-- Counterexample to C3 as stated: the reassignment of the process-wide
collection handle sits inside the `try` after the delete, so when the
delete fails the handle is NOT reassigned to the fresh collection that the
get-or-create fallback would return (handle 1 here); the old handle 0 is
kept. -/
theorem reset_delete_failure_keeps_old_handle :
    (clear_db (fun _ => (Except.error "boom" : Except String Unit))
        (fun s => .ok (s, 1)) () (0 : Nat)).2 = 0 ∧
    ((clear_db (fun _ => (Except.error "boom" : Except String Unit))
        (fun s => .ok (s, 1)) () (0 : Nat)).2 = 1 → False) :=
  ⟨rfl, by decide⟩

/-- Corrected C3: reset is total — every store outcome is caught and
mapped to a returned pair, so it never raises — but when the delete fails
the error is only swallowed: the store state and the collection handle are
returned unchanged, with no reassignment to a fresh collection. -/
theorem reset_never_raises_handle_unchanged (delete : S → Except κ S)
    (getOrCreate : S → Except κ (S × Coll)) (st : S) (coll : Coll) (e : κ)
    (hdel : delete st = .error e) :
    clear_db delete getOrCreate st coll = (st, coll) := by
  simp [clear_db, hdel]

/-- Witness for the corrected C3 at a concrete failing delete. -/
theorem reset_never_raises_handle_unchanged_witness :
    clear_db (fun _ => (Except.error "boom" : Except String Unit))
      (fun s => .ok (s, (1 : Nat))) () 5 = ((), 5) :=
  reset_never_raises_handle_unchanged _ _ () 5 "boom" rfl

end VectorDb
